import Mathlib

/-!
Verification of the v0.dev automation script (`src/main.ts`).

The script's operations are shallowly embedded: file I/O becomes explicit
state passing over `Option String` (the cookie file's contents, `none` when
the file is missing or unreadable), the JavaScript `JSON.parse` and
`JSON.stringify(·, null, 2)` builtins are modelled by an executable JSON
codec over an inductive `Json` value type, and the browser/AI interactions
(`page.observe`, `page.act`, locators, the clipboard) become parameters
describing the outcome of each delegated action.  JSON numbers are modelled
as integers (`Int`): cookie records carry integral timestamps, and
fractional or exponent-form literals fall outside the model (the parser
rejects them rather than mis-reading them).
-/

namespace V0

/-- A JSON value: the result type of the modelled `JSON.parse`.  Numbers are
modelled as integers (see the file comment). -/
inductive Json where
  | null
  | bool (b : Bool)
  | num (n : Int)
  | str (s : String)
  | arr (elems : List Json)
  | obj (members : List (String × Json))
deriving Repr

/-- JSON insignificant whitespace (RFC 8259: space, newline, tab, carriage return). -/
def jsonWs (c : Char) : Bool := c == ' ' || c == '\n' || c == '\t' || c == '\r'

/-- Drop leading JSON whitespace. -/
def skipWs : List Char → List Char
  | c :: cs => if jsonWs c then skipWs cs else c :: cs
  | [] => []

/-- Value of a hexadecimal digit character, if it is one. -/
def hexVal (c : Char) : Option Nat :=
  if '0' ≤ c && c ≤ '9' then some (c.toNat - 48)
  else if 'a' ≤ c && c ≤ 'f' then some (c.toNat - 87)
  else if 'A' ≤ c && c ≤ 'F' then some (c.toNat - 55)
  else none

/-- Prepend a character to the parsed-characters component of a string-body
parse result. -/
def strCons (c : Char) : Option (List Char × List Char) → Option (List Char × List Char)
  | some (s, r) => some (c :: s, r)
  | none => none

/-- Parse the body of a JSON string after the opening quote: returns the
unescaped characters and the input remaining after the closing quote.
Raw control characters are rejected, as `JSON.parse` rejects them. -/
def parseStrBody : List Char → Option (List Char × List Char)
  | [] => none
  | c :: cs =>
    if c = '"' then some ([], cs)
    else if c = '\\' then
      match cs with
      | [] => none
      | e :: cs2 =>
        if e = '"' then strCons '"' (parseStrBody cs2)
        else if e = '\\' then strCons '\\' (parseStrBody cs2)
        else if e = '/' then strCons '/' (parseStrBody cs2)
        else if e = 'n' then strCons '\n' (parseStrBody cs2)
        else if e = 't' then strCons '\t' (parseStrBody cs2)
        else if e = 'r' then strCons '\r' (parseStrBody cs2)
        else if e = 'b' then strCons '\x08' (parseStrBody cs2)
        else if e = 'f' then strCons '\x0c' (parseStrBody cs2)
        else if e = 'u' then
          match cs2 with
          | h1 :: h2 :: h3 :: h4 :: cs3 =>
            match hexVal h1, hexVal h2, hexVal h3, hexVal h4 with
            | some v1, some v2, some v3, some v4 =>
              strCons (Char.ofNat (((v1 * 16 + v2) * 16 + v3) * 16 + v4)) (parseStrBody cs3)
            | _, _, _, _ => none
          | _ => none
        else none
    else if c.toNat < 32 then none
    else strCons c (parseStrBody cs)

/-- Accumulate a run of decimal digit characters into a number, returning the
value and the input from the first non-digit on. -/
def takeDigitsAcc : List Char → Nat → Nat × List Char
  | [], acc => (acc, [])
  | c :: cs, acc =>
    if c.isDigit then takeDigitsAcc cs (acc * 10 + (c.toNat - 48)) else (acc, c :: cs)

/-- Value of a run of digit characters, accumulated left to right (the
fold `takeDigitsAcc` computes). -/
def digitsVal (a : Nat) (ds : List Char) : Nat :=
  ds.foldl (fun x c => x * 10 + (c.toNat - 48)) a

/-- After an integer literal nothing may follow that would extend the number:
a digit would have been consumed already, and a fraction or exponent marker
means a non-integral literal, which is outside this model. -/
def numStop : List Char → Bool
  | [] => true
  | c :: _ => !(c.isDigit || c == '.' || c == 'e' || c == 'E')

/-- Parse an unsigned JSON integer literal: either a lone `0` or a nonzero
digit followed by more digits (leading zeros are invalid JSON). -/
def parseNumAux : List Char → Option (Nat × List Char)
  | [] => none
  | c :: cs2 =>
    if c = '0' then (if numStop cs2 then some (0, cs2) else none)
    else if c.isDigit then
      let p := takeDigitsAcc cs2 (c.toNat - 48)
      if numStop p.2 then some p else none
    else none

/-- Parse a JSON number (integral literals only; see the file comment). -/
def parseNumber : List Char → Option (Json × List Char)
  | [] => none
  | c :: cs2 =>
    if c = '-' then
      match parseNumAux cs2 with
      | some (n, r) => some (.num (-(n : Int)), r)
      | none => none
    else
      match parseNumAux (c :: cs2) with
      | some (n, r) => some (.num (n : Int), r)
      | none => none

mutual

/-- Fuelled recursive-descent parser for a JSON value, the model of
`JSON.parse`: skips leading whitespace, then dispatches on the first
character.  Fuel only bounds recursion depth; `parseJson` supplies more fuel
than any input can consume. -/
def parseValue : Nat → List Char → Option (Json × List Char)
  | 0, _ => none
  | fuel + 1, cs =>
    match skipWs cs with
    | [] => none
    | c :: r =>
      if c = 'n' then
        match r with
        | 'u' :: 'l' :: 'l' :: r2 => some (.null, r2)
        | _ => none
      else if c = 't' then
        match r with
        | 'r' :: 'u' :: 'e' :: r2 => some (.bool true, r2)
        | _ => none
      else if c = 'f' then
        match r with
        | 'a' :: 'l' :: 's' :: 'e' :: r2 => some (.bool false, r2)
        | _ => none
      else if c = '"' then
        match parseStrBody r with
        | some (s, r2) => some (.str (String.mk s), r2)
        | none => none
      else if c = '[' then
        match skipWs r with
        | [] => none
        | c2 :: r2 =>
          if c2 = ']' then some (.arr [], r2)
          else
            match parseValue fuel (c2 :: r2) with
            | none => none
            | some (v, r3) =>
              match parseArrayTail fuel r3 with
              | none => none
              | some (vs, r4) => some (.arr (v :: vs), r4)
      else if c = '\x7b' then
        match skipWs r with
        | [] => none
        | c2 :: r2 =>
          if c2 = '\x7d' then some (.obj [], r2)
          else if c2 = '"' then
            match parseStrBody r2 with
            | none => none
            | some (k, r3) =>
              match skipWs r3 with
              | [] => none
              | c3 :: r4 =>
                if c3 = ':' then
                  match parseValue fuel r4 with
                  | none => none
                  | some (v, r5) =>
                    match parseObjTail fuel r5 with
                    | none => none
                    | some (kvs, r6) => some (.obj ((String.mk k, v) :: kvs), r6)
                else none
          else none
      else parseNumber (c :: r)

/-- Parse the continuation of a non-empty JSON array after one element:
either a comma and a further element, or the closing bracket. -/
def parseArrayTail : Nat → List Char → Option (List Json × List Char)
  | 0, _ => none
  | fuel + 1, cs =>
    match skipWs cs with
    | [] => none
    | c :: r =>
      if c = ',' then
        match parseValue fuel r with
        | none => none
        | some (v, r2) =>
          match parseArrayTail fuel r2 with
          | none => none
          | some (vs, r3) => some (v :: vs, r3)
      else if c = ']' then some ([], r)
      else none

/-- Parse the continuation of a non-empty JSON object after one member:
either a comma and a further `"key": value` member, or the closing brace. -/
def parseObjTail : Nat → List Char → Option (List (String × Json) × List Char)
  | 0, _ => none
  | fuel + 1, cs =>
    match skipWs cs with
    | [] => none
    | c :: r =>
      if c = '\x7d' then some ([], r)
      else if c = ',' then
        match skipWs r with
        | [] => none
        | c2 :: r2 =>
          if c2 = '"' then
            match parseStrBody r2 with
            | none => none
            | some (k, r3) =>
              match skipWs r3 with
              | [] => none
              | c3 :: r4 =>
                if c3 = ':' then
                  match parseValue fuel r4 with
                  | none => none
                  | some (v, r5) =>
                    match parseObjTail fuel r5 with
                    | none => none
                    | some (kvs, r6) => some ((String.mk k, v) :: kvs, r6)
                else none
          else none
      else none

end

/-- Model of `JSON.parse`: parse one JSON value and require that only
whitespace remains; `none` models a thrown `SyntaxError`. -/
def parseJson (s : String) : Option Json :=
  match parseValue (s.data.length + 1) s.data with
  | some (v, r) => if skipWs r = [] then some v else none
  | none => none

/-! ### Serialization: `JSON.stringify(cookies, null, 2)`

The script only ever stringifies arrays of browser cookie records
(`context.cookies()` output), so the serializer is modelled at that type:
`cookiesChars` produces exactly the pretty-printed text `JSON.stringify`
emits for such an array with a 2-space indent. -/

/-- A browser cookie record as persisted by the script: the Playwright
cookie fields (name, value, domain, path, expiry, flags). -/
structure Cookie where
  name : String
  value : String
  domain : String
  path : String
  expires : Int
  httpOnly : Bool
  secure : Bool
  sameSite : String

/-- The decimal digit character for `d < 10`. -/
def digitChar (d : Nat) : Char := Char.ofNat (48 + d)

/-- Lowercase hexadecimal digit character for `d < 16`. -/
def hexChar (d : Nat) : Char := if d < 10 then Char.ofNat (48 + d) else Char.ofNat (87 + d)

/-- JSON-escape one character the way `JSON.stringify` does: two-character
escapes for the quote, backslash and common control characters, `\u00XX`
for the remaining control characters, and everything else verbatim. -/
def escChar (c : Char) : List Char :=
  if c = '"' then ['\\', '"']
  else if c = '\\' then ['\\', '\\']
  else if c = '\x08' then ['\\', 'b']
  else if c = '\t' then ['\\', 't']
  else if c = '\n' then ['\\', 'n']
  else if c = '\x0c' then ['\\', 'f']
  else if c = '\r' then ['\\', 'r']
  else if c.toNat < 32 then
    ['\\', 'u', '0', '0', hexChar (c.toNat / 16), hexChar (c.toNat % 16)]
  else [c]

/-- JSON-escape a character sequence. -/
def escStr : List Char → List Char
  | [] => []
  | c :: cs => escChar c ++ escStr cs

/-- A JSON string literal: quote, escaped body, quote. -/
def quoteStr (s : String) : List Char := '"' :: (escStr s.data ++ ['"'])

/-- Fuelled digit extraction: the decimal digits of `n`, most significant
first, prepended to `acc`.  Any fuel of at least `n` steps is enough, and
the recursion is structural on the fuel so the kernel can evaluate it. -/
def natCharsAux : Nat → Nat → List Char → List Char
  | 0, _, acc => acc
  | fuel + 1, n, acc =>
    if n < 10 then digitChar n :: acc
    else natCharsAux fuel (n / 10) (digitChar (n % 10) :: acc)

/-- Decimal digit characters of a natural number, most significant first. -/
def natChars (n : Nat) : List Char := natCharsAux (n + 1) n []

/-- Decimal characters of an integer: optional minus sign, then digits. -/
def intChars (i : Int) : List Char :=
  if i < 0 then '-' :: natChars i.natAbs else natChars i.natAbs

/-- The characters of a JSON boolean literal. -/
def boolChars (b : Bool) : List Char := if b then "true".data else "false".data

/-- One cookie record as `JSON.stringify(·, null, 2)` lays it out inside the
array: members on their own lines at a 4-space indent, closing brace at the
item indent. -/
def cookieChars (c : Cookie) : List Char :=
  "\x7b\n    \"name\": ".data ++ quoteStr c.name
    ++ ",\n    \"value\": ".data ++ quoteStr c.value
    ++ ",\n    \"domain\": ".data ++ quoteStr c.domain
    ++ ",\n    \"path\": ".data ++ quoteStr c.path
    ++ ",\n    \"expires\": ".data ++ intChars c.expires
    ++ ",\n    \"httpOnly\": ".data ++ boolChars c.httpOnly
    ++ ",\n    \"secure\": ".data ++ boolChars c.secure
    ++ ",\n    \"sameSite\": ".data ++ quoteStr c.sameSite
    ++ "\n  \x7d".data

/-- The comma-and-newline separated array items, each at a 2-space indent. -/
def cookieItems : List Cookie → List Char
  | [] => []
  | c :: cs =>
    "  ".data ++ cookieChars c ++ (if cs.isEmpty then [] else ",\n".data) ++ cookieItems cs

/-- The full `JSON.stringify(cookies, null, 2)` text of a cookie array. -/
def cookiesChars : List Cookie → List Char
  | [] => "[]".data
  | c :: cs => "[\n".data ++ cookieItems (c :: cs) ++ "\n]".data

/-- Model of `JSON.stringify(cookies, null, 2)` as a `String`. -/
def stringifyCookies (cs : List Cookie) : String := String.mk (cookiesChars cs)

/-- The `Json` value a cookie record denotes (member order as serialized). -/
def Cookie.toJson (c : Cookie) : Json :=
  .obj [("name", .str c.name), ("value", .str c.value), ("domain", .str c.domain),
        ("path", .str c.path), ("expires", .num c.expires), ("httpOnly", .bool c.httpOnly),
        ("secure", .bool c.secure), ("sameSite", .str c.sameSite)]

/-! ### Cookie persistence (`loadCookies` / `saveCookies`, src/main.ts:39-59)

The cookie file is the only state: `Option String` is its contents, `none`
meaning reading it fails (no file, permission error).  `loadCookies` returns
the parsed value, or `[]` when reading or parsing throws; `saveCookies`
replaces the contents outright. -/

/-- Model of `loadCookies` (src/main.ts:39-49): read the cookie file and
`JSON.parse` it, returning the empty array if either step throws. -/
def loadCookies (file : Option String) : Json :=
  match file with
  | none => .arr []
  | some data =>
    match parseJson data with
    | some v => v
    | none => .arr []

/-- Model of `saveCookies` (src/main.ts:55-59): overwrite the cookie file
with `JSON.stringify(cookies, null, 2)`, regardless of its old contents. -/
def saveCookies (cookies : List Cookie) (_oldFile : Option String) : Option String :=
  some (stringifyCookies cookies)

/-! ### waitForGeneration (src/main.ts:114-128)

The loop polls for the `Retry` span.  `marker i` says whether iteration
`i`'s `waitFor` finds the marker; `dur i` is the time a failing `waitFor`
call spends before throwing (its 5000 ms timeout caps it, but no bound is
needed); each failed iteration then sleeps a further 5000 ms.  Elapsed time
is threaded explicitly, standing for `Date.now() - startTime`. -/

/-- The generation timeout constant (src/main.ts:33, 3 minutes). -/
def MAX_GENERATION_TIME : Nat := 180000

/-- One `while` iteration of `waitForGeneration`: stop with `true` when the
marker is found, accumulate the failed probe's duration plus the 5000 ms
sleep otherwise, and throw once the elapsed time reaches the limit. -/
def waitLoop (marker : Nat → Bool) (dur : Nat → Nat) (i elapsed : Nat) : Except String Bool :=
  if elapsed < MAX_GENERATION_TIME then
    if marker i then .ok true
    else waitLoop marker dur (i + 1) (elapsed + (dur i + 5000))
  else .error "Generation timed out"
termination_by MAX_GENERATION_TIME - elapsed
decreasing_by omega

/-- Model of `waitForGeneration` (src/main.ts:114-128). -/
def waitForGeneration (marker : Nat → Bool) (dur : Nat → Nat) : Except String Bool :=
  waitLoop marker dur 0 0

/-- Time elapsed when iteration `i` starts, counted from iteration `i0`:
each earlier iteration failed, costing its probe duration plus the 5000 ms
sleep. -/
def elapsedFrom (dur : Nat → Nat) (i0 : Nat) : Nat → Nat
  | 0 => 0
  | k + 1 => dur i0 + 5000 + elapsedFrom dur (i0 + 1) k

/-! ### extractCode (src/main.ts:130-183)

An attempt clicks the Code tab, clicks the copy button and reads the
clipboard; `attempt i` is the clipboard text attempt `i` obtains, `none`
when any of those steps throws (the attempt's `catch`).  The trace records
each attempt and each fixed 2000 ms sleep; the loop itself is a total
function, which is the termination claim in executable form. -/

/-- Whether clipboard content is accepted (src/main.ts:163-170): truthy,
non-blank after trimming, and containing one of the code-like substrings. -/
def containsSub (hay pat : List Char) : Bool :=
  match hay with
  | [] => pat.isEmpty
  | _ :: t => pat.isPrefixOf hay || containsSub t pat

/-- Model of JavaScript `String.prototype.includes`. -/
def includesStr (s pat : String) : Bool := containsSub s.data pat.data

/-- The content filter of `extractCode` (src/main.ts:163-170): the clipboard
text must be truthy with a non-blank trim (equivalently: contain some
non-whitespace character) and include one of the listed code keywords. -/
def acceptCode (s : String) : Bool :=
  (s.data.any fun c => !c.isWhitespace) &&
    (includesStr s "import" || includesStr s "function" || includesStr s "const" ||
      includesStr s "class" || includesStr s "export" || includesStr s "interface" ||
      includesStr s "type")

/-- An observable event of the `extractCode` loop. -/
inductive ExtractEvent where
  | tried (i : Nat) (clipboard : Option String)
  | slept (ms : Nat)
deriving Repr, DecidableEq

/-- The retry loop of `extractCode`, recursing on the remaining attempt
budget (`maxAttempts - attempts`): a successful, filter-passing attempt
returns the clipboard text under the `code.tsx` key at once; any other
attempt sleeps 2000 ms and retries; an exhausted budget throws. -/
def extractGo (attempt : Nat → Option String) (i : Nat) :
    Nat → List ExtractEvent × Except String (String × String)
  | 0 => ([], .error "Failed to extract code after multiple attempts")
  | remaining + 1 =>
    match attempt i with
    | some s =>
      if acceptCode s then ([.tried i (some s)], .ok ("code.tsx", s))
      else
        let rest := extractGo attempt (i + 1) remaining
        (.tried i (some s) :: .slept 2000 :: rest.1, rest.2)
    | none =>
      let rest := extractGo attempt (i + 1) remaining
      (.tried i none :: .slept 2000 :: rest.1, rest.2)

/-- Model of `extractCode` (src/main.ts:130-183): 5 attempts maximum. -/
def extractCode (attempt : Nat → Option String) :
    List ExtractEvent × Except String (String × String) :=
  extractGo attempt 0 5

/-- Number of attempts a trace records. -/
def countTried : List ExtractEvent → Nat
  | [] => 0
  | .tried _ _ :: es => countTried es + 1
  | .slept _ :: es => countTried es

/-! ### The Code-tab selector fallback (src/main.ts:141-152) -/

/-- The three strategies for clicking the Code tab, in source order. -/
inductive TabStrategy where
  | textLocator
  | roleTab
  | aiAct
deriving Repr, DecidableEq

/-- Model of the nested try/catch over the three click strategies
(src/main.ts:141-152): `r1`, `r2`, `r3` say whether each strategy would
succeed; the result lists the strategies actually attempted, in order, and
whether the tab ended up clicked. -/
def clickCodeTab (r1 r2 r3 : Bool) : List TabStrategy × Bool :=
  if r1 then ([.textLocator], true)
  else if r2 then ([.textLocator, .roleTab], true)
  else ([.textLocator, .roleTab, .aiAct], r3)

/-! ### checkAndLogin (src/main.ts:70-113)

`page.observe` returns a list of suggested actions; only their description
strings matter here.  Environment variables are `Option String`, and JS
truthiness makes the empty string count as unset. -/

/-- ASCII lowercasing of one character, as `toLowerCase` acts on the
descriptions involved. -/
def lowerChar (c : Char) : Char :=
  if 'A' ≤ c && c ≤ 'Z' then Char.ofNat (c.toNat + 32) else c

/-- Lowercase a description string. -/
def lowerStr (s : String) : String := String.mk (s.data.map lowerChar)

/-- Whether one observed action's description mentions signing in
(src/main.ts:74-77 and 99-102): its lowercasing contains `sign in` or
`login`. -/
def descMentionsLogin (d : String) : Bool :=
  includesStr (lowerStr d) "sign in" || includesStr (lowerStr d) "login"

/-- Whether an observation reports login elements: some action's
description mentions signing in. -/
def needsLoginFrom (obs : List String) : Bool := obs.any descMentionsLogin

/-- JS truthiness of an environment variable: present and non-empty. -/
def envTruthy : Option String → Bool
  | none => false
  | some s => !s.isEmpty

/-- Decidable equality of `Except` results, for settling concrete runs. -/
instance {ε α : Type} [DecidableEq ε] [DecidableEq α] : DecidableEq (Except ε α) := fun a b =>
  match a, b with
  | .ok x, .ok y =>
    if h : x = y then .isTrue (by rw [h]) else .isFalse (by intro hc; cases hc; exact h rfl)
  | .error x, .error y =>
    if h : x = y then .isTrue (by rw [h]) else .isFalse (by intro hc; cases hc; exact h rfl)
  | .ok _, .error _ => .isFalse (by intro hc; cases hc)
  | .error _, .ok _ => .isFalse (by intro hc; cases hc)

/-- What a run of `checkAndLogin` did and returned. -/
structure LoginTrace where
  clickedSignIn : Bool
  submittedCreds : Bool
  savedCookies : Bool
  result : Except String Bool
deriving Repr, DecidableEq

/-- Model of `checkAndLogin` (src/main.ts:70-113).  `obs1` is the initial
observation, `obs2` the post-login observation; `email` and `password` are
`GITHUB_EMAIL` and `GITHUB_PASSWORD`.  When login elements are seen, the
two sign-in clicks happen unconditionally; credentials are entered and
submitted only when both variables are truthy, after which the post-login
observation decides between saving cookies with `true` and throwing; with
missing credentials, and likewise when no login elements are seen, the
function just returns `false`. -/
def checkAndLogin (obs1 obs2 : List String) (email password : Option String) : LoginTrace :=
  if needsLoginFrom obs1 then
    if envTruthy email && envTruthy password then
      if needsLoginFrom obs2 then
        ⟨true, true, false, .error "Login failed - still seeing login elements after attempt"⟩
      else
        ⟨true, true, true, .ok true⟩
    else
      ⟨true, false, false, .ok false⟩
  else
    ⟨false, false, false, .ok false⟩

/-! ### The cookie gate in main (src/main.ts:202-214)

`loadCookies` returns whatever JSON the file held (`any[]` in the source),
so `cookies.length` is JavaScript member access: defined only on arrays,
`undefined` otherwise.  `cookies.length > 0` guards `context.addCookies`;
`!cookies.length` guards `checkAndLogin`. -/

/-- JS `.length` member access on a parsed JSON value: defined on arrays,
`undefined` (here `none`) on everything else. -/
def jsArrayLength : Json → Option Nat
  | .arr xs => some xs.length
  | _ => none

/-- What the cookie phase of `main` does with the loaded value: whether the
cookies are added to the browser context (`cookies.length > 0`, with
`undefined > 0` false) and whether `checkAndLogin` is invoked
(`!cookies.length`, with `!undefined` true). -/
def mainCookiePhase (loaded : Json) : Bool × Bool :=
  (match jsArrayLength loaded with | some n => decide (0 < n) | none => false,
   match jsArrayLength loaded with | some n => decide (n = 0) | none => true)

/-! ### The prompt template (src/main.ts:216-221) -/

/-- The prompt `main` submits for a given `--flowerType` value
(src/main.ts:217). -/
def promptFor (flowerType : String) : String :=
  "Create a beautiful " ++ flowerType ++
    " themed Valentine's day card with a romantic message. Make sure that it is only a single file."

example : parseJson "[]" = some (.arr []) := rfl
example : parseJson "oops" = none := rfl
example : parseJson "
  [ -12, \"a\\n\", true, null, \x7b \"k\" : 5 \x7d ]" =
    some (.arr [.num (-12), .str "a\n", .bool true, .null, .obj [("k", .num 5)]]) := rfl
example : parseJson "01" = none := rfl
example : stringifyCookies [] = "[]" := rfl
set_option maxRecDepth 4096 in
example :
    parseJson (stringifyCookies [⟨"a", "b", "c.io", "/", 5, true, false, "Lax"⟩]) =
      some (.arr [Cookie.toJson ⟨"a", "b", "c.io", "/", 5, true, false, "Lax"⟩]) := rfl

/-! ## Claim C1: best-effort cookie loading -/

/-- C1: `loadCookies` is best-effort: if reading the cookie file fails or
its contents cannot be parsed as JSON, it returns the empty array and never
propagates an error; if the file reads and parses successfully, it returns
the parsed value. -/
theorem loadCookies_best_effort :
    loadCookies none = Json.arr [] ∧
    (∀ s, parseJson s = none → loadCookies (some s) = Json.arr []) ∧
    (∀ s v, parseJson s = some v → loadCookies (some s) = v) := by
  refine ⟨rfl, ?_, ?_⟩ <;> intro s
  · intro h; simp [loadCookies, h]
  · intro v h; simp [loadCookies, h]

/-- Witness for C1 at concrete inputs: an unparsable file yields the empty
array, a parsable one yields its parse. -/
theorem loadCookies_best_effort_witness :
    loadCookies (some "not json") = Json.arr [] ∧
      loadCookies (some "[]") = Json.arr [] :=
  ⟨loadCookies_best_effort.2.1 "not json" rfl,
   loadCookies_best_effort.2.2 "[]" (Json.arr []) rfl⟩

/-! ## Claim C2: the cookie persistence round-trip

The serializer output is parsed back piece by piece: character classes
first, then the string escaping, the decimal digits, the object members,
and finally the whole array. -/

theorem digitChar_toNat : ∀ d, d < 10 → (digitChar d).toNat = 48 + d := by decide

theorem digitChar_isDigit : ∀ d, d < 10 → (digitChar d).isDigit = true := by decide

theorem digitChar_ne_zero : ∀ d, d < 10 → 0 < d → digitChar d ≠ '0' := by decide

theorem hexVal_hexChar : ∀ d, d < 16 → hexVal (hexChar d) = some d := by decide

/-- A digit character is not whitespace and not any of the characters the
value dispatcher or the structural grammar treats specially. -/
theorem digit_not_special {c : Char} (h : c.isDigit = true) :
    jsonWs c = false ∧ c ≠ 'n' ∧ c ≠ 't' ∧ c ≠ 'f' ∧ c ≠ '"' ∧ c ≠ '[' ∧
      c ≠ '\x7b' ∧ c ≠ '-' := by
  refine ⟨?_, ?_, ?_, ?_, ?_, ?_, ?_, ?_⟩
  · cases hc : jsonWs c
    · rfl
    · exfalso
      simp only [jsonWs, Bool.or_eq_true, beq_iff_eq] at hc
      rcases hc with ((rfl | rfl) | rfl) | rfl <;> exact absurd h (by decide)
  all_goals (rintro rfl; revert h; decide)

theorem skipWs_cons_ws {c : Char} (h : jsonWs c = true) (cs : List Char) :
    skipWs (c :: cs) = skipWs cs := by simp [skipWs, h]

theorem skipWs_cons_not {c : Char} (h : jsonWs c = false) (cs : List Char) :
    skipWs (c :: cs) = c :: cs := by simp [skipWs, h]

/-- Parsing one escaped character undoes `escChar`. -/
theorem parseStrBody_escChar (c : Char) (rest : List Char) :
    parseStrBody (escChar c ++ rest) = strCons c (parseStrBody rest) := by
  by_cases h1 : c = '"'
  · subst h1
    rw [show escChar '"' ++ rest = '\\' :: '"' :: rest from by simp [escChar]]
    rw [parseStrBody.eq_def]; simp
  by_cases h2 : c = '\\'
  · subst h2
    rw [show escChar '\\' ++ rest = '\\' :: '\\' :: rest from by simp [escChar]]
    rw [parseStrBody.eq_def]; simp
  by_cases h3 : c = '\x08'
  · subst h3
    rw [show escChar '\x08' ++ rest = '\\' :: 'b' :: rest from by simp [escChar]]
    rw [parseStrBody.eq_def]; simp
  by_cases h4 : c = '\t'
  · subst h4
    rw [show escChar '\t' ++ rest = '\\' :: 't' :: rest from by simp [escChar]]
    rw [parseStrBody.eq_def]; simp
  by_cases h5 : c = '\n'
  · subst h5
    rw [show escChar '\n' ++ rest = '\\' :: 'n' :: rest from by simp [escChar]]
    rw [parseStrBody.eq_def]; simp
  by_cases h6 : c = '\x0c'
  · subst h6
    rw [show escChar '\x0c' ++ rest = '\\' :: 'f' :: rest from by simp [escChar]]
    rw [parseStrBody.eq_def]; simp
  by_cases h7 : c = '\r'
  · subst h7
    rw [show escChar '\r' ++ rest = '\\' :: 'r' :: rest from by simp [escChar]]
    rw [parseStrBody.eq_def]; simp
  by_cases h8 : c.toNat < 32
  · rw [show escChar c =
        ['\\', 'u', '0', '0', hexChar (c.toNat / 16), hexChar (c.toNat % 16)] from by
      simp [escChar, h1, h2, h3, h4, h5, h6, h7, h8]]
    have hh : hexVal (hexChar (c.toNat / 16)) = some (c.toNat / 16) :=
      hexVal_hexChar _ (by omega)
    have hl : hexVal (hexChar (c.toNat % 16)) = some (c.toNat % 16) :=
      hexVal_hexChar _ (by omega)
    have h0 : hexVal '0' = some 0 := by decide
    simp only [List.cons_append, List.nil_append]
    rw [parseStrBody.eq_def]
    simp [hh, hl, h0]
    rw [show c.toNat / 16 * 16 + c.toNat % 16 = c.toNat from by omega, Char.ofNat_toNat]
  · rw [show escChar c = [c] from by simp [escChar, h1, h2, h3, h4, h5, h6, h7, h8]]
    simp only [List.cons_append, List.nil_append]
    rw [parseStrBody.eq_def]
    simp [h1, h2, h8]

/-- The string-body codec round-trip: parsing an escaped run recovers the
original characters and stops at the closing quote. -/
theorem parseStrBody_escStr (s rest : List Char) :
    parseStrBody (escStr s ++ '"' :: rest) = some (s, rest) := by
  induction s with
  | nil =>
    simp only [escStr, List.nil_append]
    rw [parseStrBody.eq_def]
    simp
  | cons c cs ih =>
    simp only [escStr, List.append_assoc]
    rw [parseStrBody_escChar, ih]
    rfl

theorem natCharsAux_append : ∀ (f n : Nat) (acc : List Char),
    natCharsAux f n acc = natCharsAux f n [] ++ acc := by
  intro f
  induction f with
  | zero => intro n acc; simp [natCharsAux]
  | succ f ih =>
    intro n acc
    by_cases h : n < 10
    · simp [natCharsAux, h]
    · simp only [natCharsAux, if_neg h]
      rw [ih (n / 10) (digitChar (n % 10) :: acc), ih (n / 10) [digitChar (n % 10)]]
      simp

/-- The digit run of a positive number: a nonzero leading digit followed by
digit characters. -/
theorem natCharsAux_digits : ∀ (f : Nat), ∀ n, 0 < n → n ≤ f →
    ∃ d t, natCharsAux (f + 1) n [] = digitChar d :: t ∧ 0 < d ∧ d < 10 ∧
      ∀ ch ∈ t, ch.isDigit = true := by
  intro f
  induction f with
  | zero => intro n h0 hle; omega
  | succ f ih =>
    intro n h0 hle
    by_cases h : n < 10
    · exact ⟨n, [], by simp [natCharsAux, h], h0, h, by simp⟩
    · have hlt := Nat.div_lt_self h0 (by omega : 1 < 10)
      have h10 : 0 < n / 10 := Nat.div_pos (by omega) (by omega)
      obtain ⟨d, t, heq, hd0, hd10, ht⟩ := ih (n / 10) h10 (by omega)
      refine ⟨d, t ++ [digitChar (n % 10)], ?_, hd0, hd10, ?_⟩
      · rw [show natCharsAux (f + 1 + 1) n [] =
            natCharsAux (f + 1) (n / 10) [digitChar (n % 10)] from by
          simp [natCharsAux, h]]
        rw [natCharsAux_append, heq]
        simp
      · intro ch hch
        rcases List.mem_append.mp hch with hch | hch
        · exact ht ch hch
        · rw [List.mem_singleton] at hch
          subst hch
          exact digitChar_isDigit _ (by omega)

/-- The decimal valuation of the digit run recovers the number. -/
theorem digitsVal_natCharsAux : ∀ (f : Nat), ∀ n, n ≤ f →
    digitsVal 0 (natCharsAux (f + 1) n []) = n := by
  intro f
  induction f with
  | zero =>
    intro n hle
    have : n = 0 := by omega
    subst this
    decide
  | succ f ih =>
    intro n hle
    by_cases h : n < 10
    · rw [show natCharsAux (f + 1 + 1) n [] = [digitChar n] from by simp [natCharsAux, h]]
      simp only [digitsVal, List.foldl_cons, List.foldl_nil]
      rw [digitChar_toNat n h]
      omega
    · have hlt := Nat.div_lt_self (by omega : 0 < n) (by omega : 1 < 10)
      rw [show natCharsAux (f + 1 + 1) n [] =
          natCharsAux (f + 1) (n / 10) [digitChar (n % 10)] from by simp [natCharsAux, h]]
      rw [natCharsAux_append]
      rw [show digitsVal 0 (natCharsAux (f + 1) (n / 10) [] ++ [digitChar (n % 10)]) =
          digitsVal 0 (natCharsAux (f + 1) (n / 10) []) * 10 +
            ((digitChar (n % 10)).toNat - 48) from by
        simp [digitsVal, List.foldl_append]]
      rw [ih (n / 10) (by omega), digitChar_toNat _ (by omega)]
      omega

theorem takeDigitsAcc_stop {rest : List Char} (h : numStop rest = true) :
    ∀ b, takeDigitsAcc rest b = (b, rest) := by
  intro b
  cases rest with
  | nil => rfl
  | cons c t =>
    simp only [numStop, Bool.not_eq_eq_eq_not, Bool.not_true, Bool.or_eq_false_iff] at h
    simp [takeDigitsAcc, h.1.1.1]

/-- `takeDigitsAcc` consumes exactly a digit run, folding it into the
accumulator, and stops where the input stops being digits. -/
theorem takeDigitsAcc_run : ∀ ds : List Char, (∀ c ∈ ds, c.isDigit = true) →
    ∀ rest : List Char, (∀ b, takeDigitsAcc rest b = (b, rest)) →
    ∀ a, takeDigitsAcc (ds ++ rest) a = (digitsVal a ds, rest) := by
  intro ds
  induction ds with
  | nil => intro _ rest hrest a; simpa [digitsVal] using hrest a
  | cons c t ih =>
    intro hds rest hrest a
    have hc : c.isDigit = true := hds c (by simp)
    have hrec := ih (fun x hx => hds x (by simp [hx])) rest hrest (a * 10 + (c.toNat - 48))
    simp only [List.cons_append, takeDigitsAcc, hc, if_true, List.append_eq]
    rw [hrec]
    simp [digitsVal]

/-- The unsigned-number codec round-trip: parsing the digit characters of
`n` recovers `n`, provided the remainder cannot extend the literal. -/
theorem parseNumAux_natChars (n : Nat) (rest : List Char) (hstop : numStop rest = true) :
    parseNumAux (natChars n ++ rest) = some (n, rest) := by
  by_cases h0 : n = 0
  · subst h0
    rw [show natChars 0 = ['0'] from by decide]
    simp only [List.cons_append, List.nil_append]
    simp [parseNumAux, hstop]
  · obtain ⟨d, t, heq, hd0, hd10, ht⟩ := natCharsAux_digits n n (by omega) le_rfl
    rw [show natChars n = digitChar d :: t from heq]
    simp only [List.cons_append, parseNumAux]
    rw [if_neg (digitChar_ne_zero d hd10 hd0)]
    rw [if_pos (digitChar_isDigit d hd10)]
    rw [takeDigitsAcc_run t ht rest (takeDigitsAcc_stop hstop)]
    simp only [hstop, if_true]
    have hv := digitsVal_natCharsAux n n le_rfl
    rw [show natCharsAux (n + 1) n [] = digitChar d :: t from heq] at hv
    simp only [digitsVal, List.foldl_cons] at hv ⊢
    rw [digitChar_toNat d hd10] at hv ⊢
    rw [show 0 * 10 + (48 + d - 48) = 48 + d - 48 from by omega] at hv
    exact congrArg (fun z => some (z, rest)) hv

/-- The signed-number codec round-trip (`parseNumber` inverts `intChars`). -/
theorem parseNumber_intChars (i : Int) (rest : List Char) (hstop : numStop rest = true) :
    parseNumber (intChars i ++ rest) = some (.num i, rest) := by
  by_cases hneg : i < 0
  · rw [show intChars i = '-' :: natChars i.natAbs from by simp [intChars, hneg]]
    simp only [List.cons_append, parseNumber]
    simp only [reduceIte]
    rw [parseNumAux_natChars i.natAbs rest hstop]
    simp only [Option.some.injEq, Prod.mk.injEq, Json.num.injEq]
    exact ⟨by omega, trivial⟩
  · by_cases h0 : i.natAbs = 0
    · have hz : i = 0 := by omega
      subst hz
      rw [show intChars 0 = ['0'] from by decide]
      simp only [List.cons_append, List.nil_append]
      simp [parseNumber, parseNumAux, hstop]
    · obtain ⟨d, t, heq, hd0, hd10, ht⟩ :=
        natCharsAux_digits i.natAbs i.natAbs (by omega) le_rfl
      have hich : intChars i = digitChar d :: t := by
        rw [intChars, if_neg hneg, natChars]
        exact heq
      rw [hich]
      simp only [List.cons_append, parseNumber]
      have hmofd := digit_not_special (digitChar_isDigit d hd10)
      rw [if_neg hmofd.2.2.2.2.2.2.2]
      rw [show digitChar d :: (t ++ rest) = natChars i.natAbs ++ rest from by
        rw [natChars, heq]; simp]
      rw [parseNumAux_natChars i.natAbs rest hstop]
      simp only [Option.some.injEq, Prod.mk.injEq, Json.num.injEq]
      exact ⟨by omega, trivial⟩

/-- A serialized member value preceded by the gap space: string case. -/
theorem parseValue_strSp (fuel : Nat) (s : String) (tail : List Char) :
    parseValue (fuel + 1) (' ' :: (quoteStr s ++ tail)) = some (.str s, tail) := by
  rw [show ' ' :: (quoteStr s ++ tail) = ' ' :: '"' :: (escStr s.data ++ ('"' :: tail)) from by
    simp [quoteStr]]
  simp only [parseValue]
  rw [show skipWs (' ' :: '"' :: (escStr s.data ++ ('"' :: tail))) =
      '"' :: (escStr s.data ++ ('"' :: tail)) from by simp [skipWs, jsonWs]]
  simp only [reduceCtorEq, reduceIte, Char.reduceEq]
  rw [parseStrBody_escStr]

/-- A serialized member value preceded by the gap space: boolean case. -/
theorem parseValue_boolSp (fuel : Nat) (b : Bool) (tail : List Char) :
    parseValue (fuel + 1) (' ' :: (boolChars b ++ tail)) = some (.bool b, tail) := by
  cases b <;>
    · simp only [boolChars, Bool.false_eq_true, if_false, if_true]
      simp [parseValue, skipWs, jsonWs]

/-- A serialized member value preceded by the gap space: integer case. -/
theorem parseValue_intSp (fuel : Nat) (i : Int) (tail : List Char)
    (hstop : numStop tail = true) :
    parseValue (fuel + 1) (' ' :: (intChars i ++ tail)) = some (.num i, tail) := by
  have key : ∀ c0 : Char, jsonWs c0 = false → c0 ≠ 'n' → c0 ≠ 't' → c0 ≠ 'f' →
      c0 ≠ '"' → c0 ≠ '[' → c0 ≠ '\x7b' → ∀ t0 : List Char,
      parseValue (fuel + 1) (' ' :: c0 :: t0) = parseNumber (c0 :: t0) := by
    intro c0 hws hn ht hf hq hbk hbc t0
    simp only [parseValue]
    rw [show skipWs (' ' :: c0 :: t0) = c0 :: t0 from by
      rw [skipWs_cons_ws (by decide), skipWs_cons_not hws]]
    simp [hn, ht, hf, hq, hbk, hbc]
  by_cases hneg : i < 0
  · rw [show intChars i ++ tail = '-' :: (natChars i.natAbs ++ tail) from by
      simp [intChars, hneg]]
    rw [key '-' (by decide) (by decide) (by decide) (by decide) (by decide) (by decide)
      (by decide)]
    rw [show '-' :: (natChars i.natAbs ++ tail) = intChars i ++ tail from by
      simp [intChars, hneg]]
    exact parseNumber_intChars i tail hstop
  · by_cases h0 : i.natAbs = 0
    · rw [show intChars i ++ tail = '0' :: tail from by
        rw [show intChars i = ['0'] from by
          rw [intChars, if_neg hneg, h0]; decide]
        simp]
      rw [key '0' (by decide) (by decide) (by decide) (by decide) (by decide) (by decide)
        (by decide)]
      rw [show ('0' : Char) :: tail = intChars i ++ tail from by
        rw [show intChars i = ['0'] from by rw [intChars, if_neg hneg, h0]; decide]
        simp]
      exact parseNumber_intChars i tail hstop
    · obtain ⟨d, t, heq, hd0, hd10, ht⟩ :=
        natCharsAux_digits i.natAbs i.natAbs (by omega) le_rfl
      have hich : intChars i = digitChar d :: t := by
        rw [intChars, if_neg hneg, natChars]
        exact heq
      have hspec := digit_not_special (digitChar_isDigit d hd10)
      rw [show intChars i ++ tail = digitChar d :: (t ++ tail) from by rw [hich]; simp]
      rw [key (digitChar d) hspec.1 hspec.2.1 hspec.2.2.1 hspec.2.2.2.1 hspec.2.2.2.2.1
        hspec.2.2.2.2.2.1 hspec.2.2.2.2.2.2.1]
      rw [show digitChar d :: (t ++ tail) = intChars i ++ tail from by rw [hich]; simp]
      exact parseNumber_intChars i tail hstop

/-- The closing of a serialized cookie object. -/
theorem parseCk_close (fuel : Nat) (rest : List Char) :
    parseObjTail (fuel + 1) ("\n  \x7d".data ++ rest) = some ([], rest) := by
  rw [show "\n  \x7d".data ++ rest = '\n' :: ' ' :: ' ' :: '\x7d' :: rest from by rfl]
  simp [parseObjTail, skipWs, jsonWs]

/-- One further serialized object member with a string value. -/
theorem parseObjTail_member_str (g : Nat) (kd : List Char) (hkd : escStr kd = kd)
    (s : String) (X rest : List Char) (kvs : List (String × Json))
    (hrec : parseObjTail (g + 1) X = some (kvs, rest)) :
    parseObjTail (g + 2)
      (',' :: '\n' :: ' ' :: ' ' :: ' ' :: ' ' :: '"' ::
        (kd ++ ('"' :: ':' :: ' ' :: (quoteStr s ++ X)))) =
      some ((String.mk kd, .str s) :: kvs, rest) := by
  rw [parseObjTail.eq_def]
  simp [skipWs, jsonWs]
  rw [← hkd, parseStrBody_escStr]
  simp [skipWs, jsonWs]
  rw [parseValue_strSp g s X]
  simp [hrec, hkd]

/-- One further serialized object member with an integer value. -/
theorem parseObjTail_member_num (g : Nat) (kd : List Char) (hkd : escStr kd = kd)
    (i : Int) (X rest : List Char) (kvs : List (String × Json))
    (hstop : numStop X = true)
    (hrec : parseObjTail (g + 1) X = some (kvs, rest)) :
    parseObjTail (g + 2)
      (',' :: '\n' :: ' ' :: ' ' :: ' ' :: ' ' :: '"' ::
        (kd ++ ('"' :: ':' :: ' ' :: (intChars i ++ X)))) =
      some ((String.mk kd, .num i) :: kvs, rest) := by
  rw [parseObjTail.eq_def]
  simp [skipWs, jsonWs]
  rw [← hkd, parseStrBody_escStr]
  simp [skipWs, jsonWs]
  rw [parseValue_intSp g i X hstop]
  simp [hrec, hkd]

/-- One further serialized object member with a boolean value. -/
theorem parseObjTail_member_bool (g : Nat) (kd : List Char) (hkd : escStr kd = kd)
    (b : Bool) (X rest : List Char) (kvs : List (String × Json))
    (hrec : parseObjTail (g + 1) X = some (kvs, rest)) :
    parseObjTail (g + 2)
      (',' :: '\n' :: ' ' :: ' ' :: ' ' :: ' ' :: '"' ::
        (kd ++ ('"' :: ':' :: ' ' :: (boolChars b ++ X)))) =
      some ((String.mk kd, .bool b) :: kvs, rest) := by
  rw [parseObjTail.eq_def]
  simp [skipWs, jsonWs]
  rw [← hkd, parseStrBody_escStr]
  simp [skipWs, jsonWs]
  rw [parseValue_boolSp g b X]
  simp [hrec, hkd]

/-- The opening of a serialized cookie object, whose first member has a
string value. -/
theorem parseValue_obj_str (g : Nat) (kd : List Char) (hkd : escStr kd = kd)
    (s : String) (X rest : List Char) (kvs : List (String × Json))
    (hrec : parseObjTail (g + 1) X = some (kvs, rest)) :
    parseValue (g + 2)
      ('\x7b' :: '\n' :: ' ' :: ' ' :: ' ' :: ' ' :: '"' ::
        (kd ++ ('"' :: ':' :: ' ' :: (quoteStr s ++ X)))) =
      some (.obj ((String.mk kd, .str s) :: kvs), rest) := by
  rw [parseValue.eq_def]
  simp [skipWs, jsonWs]
  rw [← hkd, parseStrBody_escStr]
  simp [skipWs, jsonWs]
  rw [parseValue_strSp g s X]
  simp [hrec, hkd]

theorem dataSegName : "\x7b\n    \"name\": ".data = '\x7b' :: '\n' :: ' ' :: ' ' :: ' ' :: ' ' :: '"' :: 'n' :: 'a' :: 'm' :: 'e' :: '"' :: ':' :: ' ' :: [] := rfl

theorem dataSegValue : ",\n    \"value\": ".data = ',' :: '\n' :: ' ' :: ' ' :: ' ' :: ' ' :: '"' :: 'v' :: 'a' :: 'l' :: 'u' :: 'e' :: '"' :: ':' :: ' ' :: [] := rfl

theorem dataSegDomain : ",\n    \"domain\": ".data = ',' :: '\n' :: ' ' :: ' ' :: ' ' :: ' ' :: '"' :: 'd' :: 'o' :: 'm' :: 'a' :: 'i' :: 'n' :: '"' :: ':' :: ' ' :: [] := rfl

theorem dataSegPath : ",\n    \"path\": ".data = ',' :: '\n' :: ' ' :: ' ' :: ' ' :: ' ' :: '"' :: 'p' :: 'a' :: 't' :: 'h' :: '"' :: ':' :: ' ' :: [] := rfl

theorem dataSegExpires : ",\n    \"expires\": ".data = ',' :: '\n' :: ' ' :: ' ' :: ' ' :: ' ' :: '"' :: 'e' :: 'x' :: 'p' :: 'i' :: 'r' :: 'e' :: 's' :: '"' :: ':' :: ' ' :: [] := rfl

theorem dataSegHttpOnly : ",\n    \"httpOnly\": ".data = ',' :: '\n' :: ' ' :: ' ' :: ' ' :: ' ' :: '"' :: 'h' :: 't' :: 't' :: 'p' :: 'O' :: 'n' :: 'l' :: 'y' :: '"' :: ':' :: ' ' :: [] := rfl

theorem dataSegSecure : ",\n    \"secure\": ".data = ',' :: '\n' :: ' ' :: ' ' :: ' ' :: ' ' :: '"' :: 's' :: 'e' :: 'c' :: 'u' :: 'r' :: 'e' :: '"' :: ':' :: ' ' :: [] := rfl

theorem dataSegSameSite : ",\n    \"sameSite\": ".data = ',' :: '\n' :: ' ' :: ' ' :: ' ' :: ' ' :: '"' :: 's' :: 'a' :: 'm' :: 'e' :: 'S' :: 'i' :: 't' :: 'e' :: '"' :: ':' :: ' ' :: [] := rfl

theorem dataSegClose : "\n  \x7d".data = '\n' :: ' ' :: ' ' :: '\x7d' :: [] := rfl

theorem dataKeyName : "name".data = 'n' :: 'a' :: 'm' :: 'e' :: [] := rfl

theorem dataKeyValue : "value".data = 'v' :: 'a' :: 'l' :: 'u' :: 'e' :: [] := rfl

theorem dataKeyDomain : "domain".data = 'd' :: 'o' :: 'm' :: 'a' :: 'i' :: 'n' :: [] := rfl

theorem dataKeyPath : "path".data = 'p' :: 'a' :: 't' :: 'h' :: [] := rfl

theorem dataKeyExpires : "expires".data = 'e' :: 'x' :: 'p' :: 'i' :: 'r' :: 'e' :: 's' :: [] := rfl

theorem dataKeyHttpOnly : "httpOnly".data = 'h' :: 't' :: 't' :: 'p' :: 'O' :: 'n' :: 'l' :: 'y' :: [] := rfl

theorem dataKeySecure : "secure".data = 's' :: 'e' :: 'c' :: 'u' :: 'r' :: 'e' :: [] := rfl

theorem dataKeySameSite : "sameSite".data = 's' :: 'a' :: 'm' :: 'e' :: 'S' :: 'i' :: 't' :: 'e' :: [] := rfl

/-- The cookie-object codec round-trip: a serialized cookie record parses
back to its `Json` denotation, at any fuel of the shape `f + 9`. -/
theorem parseValue_cookie (f : Nat) (ck : Cookie) (rest : List Char) :
    parseValue (f + 9) (cookieChars ck ++ rest) = some (ck.toJson, rest) := by
  have h8 : parseObjTail (f + 1) ("\n  \x7d".data ++ rest) = some ([], rest) :=
    parseCk_close f rest
  have h7 := parseObjTail_member_str f "sameSite".data (by decide) ck.sameSite
    ("\n  \x7d".data ++ rest) rest [] h8
  have h6 := parseObjTail_member_bool (f + 1) "secure".data (by decide) ck.secure
    _ rest _ h7
  have h5 := parseObjTail_member_bool (f + 2) "httpOnly".data (by decide) ck.httpOnly
    _ rest _ h6
  have h4 := parseObjTail_member_num (f + 3) "expires".data (by decide) ck.expires
    _ rest _ (by simp [numStop]) h5
  have h3 := parseObjTail_member_str (f + 4) "path".data (by decide) ck.path
    _ rest _ h4
  have h2 := parseObjTail_member_str (f + 5) "domain".data (by decide) ck.domain
    _ rest _ h3
  have h1 := parseObjTail_member_str (f + 6) "value".data (by decide) ck.value
    _ rest _ h2
  have htop := parseValue_obj_str (f + 7) "name".data (by decide) ck.name
    _ rest _ h1
  have hshape : cookieChars ck ++ rest =
      '\x7b' :: '\n' :: ' ' :: ' ' :: ' ' :: ' ' :: '"' ::
      ("name".data ++ ('"' :: ':' :: ' ' :: (quoteStr ck.name ++
        (',' :: '\n' :: ' ' :: ' ' :: ' ' :: ' ' :: '"' ::
      ("value".data ++ ('"' :: ':' :: ' ' :: (quoteStr ck.value ++
        (',' :: '\n' :: ' ' :: ' ' :: ' ' :: ' ' :: '"' ::
      ("domain".data ++ ('"' :: ':' :: ' ' :: (quoteStr ck.domain ++
        (',' :: '\n' :: ' ' :: ' ' :: ' ' :: ' ' :: '"' ::
      ("path".data ++ ('"' :: ':' :: ' ' :: (quoteStr ck.path ++
        (',' :: '\n' :: ' ' :: ' ' :: ' ' :: ' ' :: '"' ::
      ("expires".data ++ ('"' :: ':' :: ' ' :: (intChars ck.expires ++
        (',' :: '\n' :: ' ' :: ' ' :: ' ' :: ' ' :: '"' ::
      ("httpOnly".data ++ ('"' :: ':' :: ' ' :: (boolChars ck.httpOnly ++
        (',' :: '\n' :: ' ' :: ' ' :: ' ' :: ' ' :: '"' ::
      ("secure".data ++ ('"' :: ':' :: ' ' :: (boolChars ck.secure ++
        (',' :: '\n' :: ' ' :: ' ' :: ' ' :: ' ' :: '"' ::
      ("sameSite".data ++ ('"' :: ':' :: ' ' :: (quoteStr ck.sameSite ++
        ("\n  \x7d".data ++ rest)))))))))))))))))))))))))))))))) := by
    simp [cookieChars, quoteStr, dataSegName, dataSegValue, dataSegDomain, dataSegPath, dataSegExpires, dataSegHttpOnly, dataSegSecure, dataSegSameSite, dataSegClose, dataKeyName, dataKeyValue, dataKeyDomain, dataKeyPath, dataKeyExpires, dataKeyHttpOnly, dataKeySecure, dataKeySameSite]
  rw [hshape]
  exact htop.trans (by rfl)

theorem dataComma : ",\n".data = ',' :: '\n' :: [] := rfl

theorem dataSp2 : "  ".data = ' ' :: ' ' :: [] := rfl

theorem dataArrOpen : "[\n".data = '[' :: '\n' :: [] := rfl

theorem dataArrClose : "\n]".data = '\n' :: ']' :: [] := rfl

/-- The value parser only looks at its whitespace-stripped input. -/
theorem parseValue_wsCongr (g : Nat) (xs ys : List Char) (h : skipWs xs = skipWs ys) :
    parseValue (g + 1) xs = parseValue (g + 1) ys := by
  rw [parseValue.eq_def]
  conv_rhs => rw [parseValue.eq_def]
  simp only [h]

/-- A comma-continued array element whose serialized form starts with an
object brace. -/
theorem parseArrayTail_consHead (g : Nat) (W : List Char) (v : Json)
    (T2 rest : List Char) (vs : List Json)
    (hv : parseValue (g + 1) ('\x7b' :: W) = some (v, T2))
    (hrec : parseArrayTail (g + 1) T2 = some (vs, rest)) :
    parseArrayTail (g + 2) (',' :: '\n' :: ' ' :: ' ' :: '\x7b' :: W) =
      some (v :: vs, rest) := by
  rw [parseArrayTail.eq_def]
  simp [skipWs, jsonWs]
  rw [parseValue_wsCongr g _ ('\x7b' :: W) (by simp [skipWs, jsonWs])]
  rw [hv]
  simp [hrec]

/-- An array that opens straight into a brace-headed element. -/
theorem parseValue_arrHead (g : Nat) (W : List Char) (v : Json)
    (T2 rest : List Char) (vs : List Json)
    (hv : parseValue (g + 1) ('\x7b' :: W) = some (v, T2))
    (hrec : parseArrayTail (g + 1) T2 = some (vs, rest)) :
    parseValue (g + 2) ('[' :: '\n' :: ' ' :: ' ' :: '\x7b' :: W) =
      some (.arr (v :: vs), rest) := by
  rw [parseValue.eq_def]
  simp [skipWs, jsonWs]
  rw [hv]
  simp [hrec]

/-- The serialized items of a cookie array, after the first element: each
later element is parsed through the comma branch of `parseArrayTail`, and
the closing bracket ends the array. -/
theorem parseArrayTail_items : ∀ (cs : List Cookie) (f : Nat) (rest : List Char),
    parseArrayTail (f + 10 * cs.length + 1)
      (((if cs.isEmpty then [] else ",\n".data) ++ cookieItems cs) ++ ("\n]".data ++ rest)) =
      some (cs.map Cookie.toJson, rest) := by
  intro cs
  induction cs with
  | nil =>
    intro f rest
    rw [show (((if ([] : List Cookie).isEmpty then [] else ",\n".data) ++ cookieItems []) ++
        ("\n]".data ++ rest)) = '\n' :: ']' :: rest from by simp [cookieItems, dataArrClose]]
    simp [parseArrayTail, skipWs, jsonWs]
  | cons c cs' ih =>
    intro f rest
    have hz0 : cookieChars c = '\x7b' :: (cookieChars c).tail := by
      simp [cookieChars, dataSegName]
    have hz : cookieChars c ++
        (((if cs'.isEmpty then [] else ",\n".data) ++ cookieItems cs') ++ ("\n]".data ++ rest)) =
        '\x7b' :: ((cookieChars c).tail ++
          (((if cs'.isEmpty then [] else ",\n".data) ++ cookieItems cs') ++ ("\n]".data ++ rest))) := by
      conv_lhs => rw [hz0]
      simp
    have hv : parseValue (f + 10 * cs'.length + 10)
        ('\x7b' :: ((cookieChars c).tail ++
          (((if cs'.isEmpty then [] else ",\n".data) ++ cookieItems cs') ++ ("\n]".data ++ rest)))) =
        some (c.toJson,
          (((if cs'.isEmpty then [] else ",\n".data) ++ cookieItems cs') ++ ("\n]".data ++ rest))) := by
      rw [← hz]
      exact parseValue_cookie (f + 10 * cs'.length + 1) c _
    have hih := ih (f + 9) rest
    rw [show f + 9 + 10 * cs'.length + 1 = f + 10 * cs'.length + 10 from by omega] at hih
    rw [show f + 10 * (c :: cs').length + 1 = (f + 10 * cs'.length + 9) + 2 from by
      simp [List.length_cons]; ring]
    rw [show (((if (c :: cs').isEmpty then [] else ",\n".data) ++ cookieItems (c :: cs')) ++
        ("\n]".data ++ rest)) =
        ',' :: '\n' :: ' ' :: ' ' :: '\x7b' :: ((cookieChars c).tail ++
          (((if cs'.isEmpty then [] else ",\n".data) ++ cookieItems cs') ++ ("\n]".data ++ rest))) from by
      rw [← hz]
      simp [cookieItems, dataComma, dataSp2]]
    exact parseArrayTail_consHead (f + 10 * cs'.length + 9) _ c.toJson _ rest _ hv hih

/-- The whole-array codec round-trip at any sufficiently fuelled
`parseValue` call. -/
theorem parseValue_cookies : ∀ (cs : List Cookie) (f : Nat) (rest : List Char),
    parseValue (f + 10 * cs.length + 2) (cookiesChars cs ++ rest) =
      some (.arr (cs.map Cookie.toJson), rest) := by
  intro cs
  cases cs with
  | nil =>
    intro f rest
    rw [show cookiesChars [] ++ rest = '[' :: ']' :: rest from rfl]
    simp [parseValue, skipWs, jsonWs]
  | cons c cs' =>
    intro f rest
    have hz0 : cookieChars c = '\x7b' :: (cookieChars c).tail := by
      simp [cookieChars, dataSegName]
    have hz : cookieChars c ++
        (((if cs'.isEmpty then [] else ",\n".data) ++ cookieItems cs') ++ ("\n]".data ++ rest)) =
        '\x7b' :: ((cookieChars c).tail ++
          (((if cs'.isEmpty then [] else ",\n".data) ++ cookieItems cs') ++ ("\n]".data ++ rest))) := by
      conv_lhs => rw [hz0]
      simp
    have hv : parseValue (f + 10 * cs'.length + 11)
        ('\x7b' :: ((cookieChars c).tail ++
          (((if cs'.isEmpty then [] else ",\n".data) ++ cookieItems cs') ++ ("\n]".data ++ rest)))) =
        some (c.toJson,
          (((if cs'.isEmpty then [] else ",\n".data) ++ cookieItems cs') ++ ("\n]".data ++ rest))) := by
      rw [← hz]
      exact parseValue_cookie (f + 10 * cs'.length + 2) c _
    have hit := parseArrayTail_items cs' (f + 10) rest
    rw [show f + 10 + 10 * cs'.length + 1 = f + 10 * cs'.length + 11 from by omega] at hit
    rw [show f + 10 * (c :: cs').length + 2 = (f + 10 * cs'.length + 10) + 2 from by
      simp [List.length_cons]; ring]
    rw [show cookiesChars (c :: cs') ++ rest =
        '[' :: '\n' :: ' ' :: ' ' :: '\x7b' :: ((cookieChars c).tail ++
          (((if cs'.isEmpty then [] else ",\n".data) ++ cookieItems cs') ++ ("\n]".data ++ rest))) from by
      rw [← hz]
      simp [cookiesChars, cookieItems, dataArrOpen, dataSp2, dataComma, dataArrClose]]
    exact parseValue_arrHead (f + 10 * cs'.length + 10) _ c.toJson _ rest _ hv hit

theorem cookieChars_length (ck : Cookie) : 18 ≤ (cookieChars ck).length := by
  simp [cookieChars, dataSegName, dataSegValue, dataSegDomain, dataSegPath, dataSegExpires,
    dataSegHttpOnly, dataSegSecure, dataSegSameSite, dataSegClose, List.length_append]
  omega

theorem cookieItems_length : ∀ cs : List Cookie, 10 * cs.length ≤ (cookieItems cs).length := by
  intro cs
  induction cs with
  | nil => simp [cookieItems]
  | cons c cs' ih =>
    have hc := cookieChars_length c
    rw [show cookieItems (c :: cs') = "  ".data ++ cookieChars c ++
        (if cs'.isEmpty then [] else ",\n".data) ++ cookieItems cs' from rfl]
    by_cases he : cs'.isEmpty <;>
      simp only [he, if_true, if_false, List.length_append, dataSp2, dataComma,
        List.length_cons, List.length_nil] <;>
      omega

theorem cookiesChars_length (cs : List Cookie) :
    10 * cs.length + 1 ≤ (cookiesChars cs).length := by
  cases cs with
  | nil => simp [cookiesChars]
  | cons c cs' =>
    have hi := cookieItems_length (c :: cs')
    simp only [List.length_cons] at hi
    simp only [cookiesChars, List.length_append, dataArrOpen, dataArrClose,
      List.length_cons, List.length_nil]
    omega

/-- The full persistence codec round-trip: `JSON.parse` applied to
`JSON.stringify(cookies, null, 2)` recovers the serialized cookie array. -/
theorem parseJson_stringifyCookies (cs : List Cookie) :
    parseJson (stringifyCookies cs) = some (.arr (cs.map Cookie.toJson)) := by
  have hlen := cookiesChars_length cs
  obtain ⟨g, hg⟩ : ∃ g, (cookiesChars cs).length + 1 = g + 10 * cs.length + 2 :=
    ⟨(cookiesChars cs).length + 1 - (10 * cs.length + 2), by omega⟩
  have hpv := parseValue_cookies cs g []
  rw [List.append_nil] at hpv
  show (match parseValue ((stringifyCookies cs).data.length + 1)
      (stringifyCookies cs).data with
    | some (v, r) => if skipWs r = [] then some v else none
    | none => none) = some (.arr (cs.map Cookie.toJson))
  rw [show (stringifyCookies cs).data = cookiesChars cs from rfl]
  rw [hg, hpv]
  simp [skipWs]

/-- C2: cookie persistence round-trips.  Saving any cookie array and then
loading, with no intervening write, yields the JSON array denoting exactly
the saved cookies — and that denotation is injective, so the loaded array
determines the saved one.  Each save overwrites the file outright: its
result does not depend on the previous contents. -/
theorem cookie_persistence_roundtrip (cookies : List Cookie) :
    (∀ old, loadCookies (saveCookies cookies old) =
      Json.arr (cookies.map Cookie.toJson)) ∧
    (∀ old1 old2, saveCookies cookies old1 = saveCookies cookies old2) ∧
    (∀ c1 c2 : Cookie, Cookie.toJson c1 = Cookie.toJson c2 → c1 = c2) := by
  refine ⟨?_, fun _ _ => rfl, ?_⟩
  · intro old
    show (match parseJson (stringifyCookies cookies) with
      | some v => v
      | none => Json.arr []) = Json.arr (cookies.map Cookie.toJson)
    rw [parseJson_stringifyCookies cookies]
  · intro c1 c2 h
    simp only [Cookie.toJson, Json.obj.injEq, List.cons.injEq, Prod.mk.injEq,
      Json.str.injEq, Json.num.injEq, Json.bool.injEq, and_true, true_and] at h
    obtain ⟨h1, h2, h3, h4, h5, h6, h7, h8⟩ := h
    cases c1
    cases c2
    simp_all

/-- Witness for C2 at a concrete cookie record and file state. -/
theorem cookie_persistence_roundtrip_witness :
    loadCookies (saveCookies [⟨"sid", "abc", "v0.dev", "/", 1700000000, true, false, "Lax"⟩]
        (some "old contents")) =
      Json.arr [Cookie.toJson ⟨"sid", "abc", "v0.dev", "/", 1700000000, true, false, "Lax"⟩] ∧
    (⟨"sid", "abc", "v0.dev", "/", 1700000000, true, false, "Lax"⟩ : Cookie) =
      ⟨"sid", "abc", "v0.dev", "/", 1700000000, true, false, "Lax"⟩ :=
  ⟨((cookie_persistence_roundtrip
      [⟨"sid", "abc", "v0.dev", "/", 1700000000, true, false, "Lax"⟩]).1
        (some "old contents")).trans (by rw [List.map]; rfl),
   (cookie_persistence_roundtrip
      [⟨"sid", "abc", "v0.dev", "/", 1700000000, true, false, "Lax"⟩]).2.2 _ _ rfl⟩

/-! ## Claim C3: the generation timeout loop -/

theorem waitLoop_cases (marker : Nat → Bool) (dur : Nat → Nat) :
    ∀ m i e, MAX_GENERATION_TIME - e ≤ m →
      waitLoop marker dur i e = .ok true ∨
        waitLoop marker dur i e = .error "Generation timed out" := by
  intro m
  induction m with
  | zero =>
    intro i e he
    rw [waitLoop]
    rw [if_neg (by omega)]
    exact Or.inr rfl
  | succ m ih =>
    intro i e he
    rw [waitLoop]
    by_cases h : e < MAX_GENERATION_TIME
    · rw [if_pos h]
      cases hm : marker i with
      | true => exact Or.inl rfl
      | false =>
        simp only [Bool.false_eq_true, if_false]
        exact ih (i + 1) (e + (dur i + 5000)) (by omega)
    · rw [if_neg h]
      exact Or.inr rfl

theorem waitLoop_never (marker : Nat → Bool) (dur : Nat → Nat)
    (hnone : ∀ k, marker k = false) :
    ∀ m i e, MAX_GENERATION_TIME - e ≤ m →
      waitLoop marker dur i e = .error "Generation timed out" := by
  intro m
  induction m with
  | zero =>
    intro i e he
    rw [waitLoop]
    rw [if_neg (by omega)]
  | succ m ih =>
    intro i e he
    rw [waitLoop]
    by_cases h : e < MAX_GENERATION_TIME
    · rw [if_pos h, hnone i]
      simp only [Bool.false_eq_true, if_false]
      exact ih (i + 1) (e + (dur i + 5000)) (by omega)
    · rw [if_neg h]

theorem waitLoop_finds (marker : Nat → Bool) (dur : Nat → Nat) :
    ∀ k i e, (∀ j, j < k → marker (i + j) = false) → marker (i + k) = true →
      e + elapsedFrom dur i k < MAX_GENERATION_TIME →
      waitLoop marker dur i e = .ok true := by
  intro k
  induction k with
  | zero =>
    intro i e _ hm he
    rw [waitLoop]
    rw [if_pos (by simp [elapsedFrom] at he; omega)]
    rw [show marker i = true from by simpa using hm]
    rfl
  | succ k ih =>
    intro i e hprev hm he
    simp only [elapsedFrom] at he
    rw [waitLoop]
    rw [if_pos (by omega)]
    rw [show marker i = false from by simpa using hprev 0 (by omega)]
    simp only [Bool.false_eq_true, if_false]
    exact ih (i + 1) (e + (dur i + 5000))
      (fun j hj => by simpa [Nat.add_assoc, Nat.add_comm 1 j] using hprev (j + 1) (by omega))
      (by simpa [Nat.add_assoc, Nat.add_comm 1 k] using hm)
      (by omega)

/-- C3: `waitForGeneration` polls for the marker and has exactly two
outcomes: it returns `true` as soon as the marker is found within the
hard-coded `MAX_GENERATION_TIME` (180000 ms) window, and throws
`Generation timed out` once that much time elapses without the marker
appearing. -/
theorem waitForGeneration_spec (marker : Nat → Bool) (dur : Nat → Nat) :
    (waitForGeneration marker dur = .ok true ∨
      waitForGeneration marker dur = .error "Generation timed out") ∧
    (∀ i, (∀ j, j < i → marker j = false) → marker i = true →
      elapsedFrom dur 0 i < MAX_GENERATION_TIME →
      waitForGeneration marker dur = .ok true) ∧
    ((∀ i, marker i = false) →
      waitForGeneration marker dur = .error "Generation timed out") := by
  refine ⟨waitLoop_cases marker dur _ 0 0 le_rfl, ?_, ?_⟩
  · intro i h1 h2 h3
    exact waitLoop_finds marker dur i 0 0 (by simpa using h1) (by simpa using h2)
      (by simpa using h3)
  · intro h
    exact waitLoop_never marker dur h _ 0 0 le_rfl

/-- Witness for C3: with the marker present at once, the loop returns
`true` immediately. -/
theorem waitForGeneration_spec_witness :
    waitForGeneration (fun _ => true) (fun _ => 0) = .ok true :=
  (waitForGeneration_spec (fun _ => true) (fun _ => 0)).2.1 0
    (by intro j hj; omega) rfl (by decide)

/-! ## Claims C4 and C9: the extraction retry loop and its content filter -/

theorem extractGo_countTried (attempt : Nat → Option String) :
    ∀ rem i, countTried (extractGo attempt i rem).1 ≤ rem := by
  intro rem
  induction rem with
  | zero => intro i; simp [extractGo, countTried]
  | succ rem ih =>
    intro i
    simp only [extractGo]
    cases attempt i with
    | some s =>
      by_cases h : acceptCode s = true
      · simp [h, countTried]
      · simp only [if_neg h]
        simpa [countTried] using ih (i + 1)
    | none =>
      simpa [countTried] using ih (i + 1)

theorem extractGo_sleeps (attempt : Nat → Option String) :
    ∀ rem i ms, ExtractEvent.slept ms ∈ (extractGo attempt i rem).1 → ms = 2000 := by
  intro rem
  induction rem with
  | zero => intro i ms h; simp [extractGo] at h
  | succ rem ih =>
    intro i ms h
    simp only [extractGo] at h
    cases ha : attempt i with
    | some s =>
      rw [ha] at h
      by_cases hs : acceptCode s = true
      · simp [hs] at h
      · simp [hs] at h
        rcases h with h | h
        · exact h
        · exact ih (i + 1) ms h
    | none =>
      rw [ha] at h
      simp at h
      rcases h with h | h
      · exact h
      · exact ih (i + 1) ms h

theorem extractGo_allfail (attempt : Nat → Option String) :
    ∀ rem i, (∀ j, j < rem → ∀ s, attempt (i + j) = some s → acceptCode s = false) →
      (extractGo attempt i rem).2 = .error "Failed to extract code after multiple attempts" ∧
      countTried (extractGo attempt i rem).1 = rem := by
  intro rem
  induction rem with
  | zero => intro i _; simp [extractGo, countTried]
  | succ rem ih =>
    intro i hfail
    have hstep := ih (i + 1) (fun j hj s hs => by
      have := hfail (j + 1) (by omega) s (by simpa [Nat.add_assoc, Nat.add_comm 1 j] using hs)
      exact this)
    simp only [extractGo]
    cases ha : attempt i with
    | some s =>
      have : acceptCode s = false := hfail 0 (by omega) s (by simpa using ha)
      simp [this, countTried, hstep.1, hstep.2]
    | none =>
      simp [countTried, hstep.1, hstep.2]

/-- C4: `extractCode` performs bounded retries with a fixed sleep: at most
5 attempts, every sleep in the loop is the fixed 2000 ms one, and when no
attempt yields accepted clipboard content it throws
`Failed to extract code after multiple attempts` after the fifth attempt.
The loop is a total function of its attempt outcomes, so it terminates. -/
theorem extractCode_bounded_retries (attempt : Nat → Option String) :
    countTried (extractCode attempt).1 ≤ 5 ∧
    (∀ ms, ExtractEvent.slept ms ∈ (extractCode attempt).1 → ms = 2000) ∧
    ((∀ j, j < 5 → ∀ s, attempt j = some s → acceptCode s = false) →
      (extractCode attempt).2 = .error "Failed to extract code after multiple attempts" ∧
      countTried (extractCode attempt).1 = 5) := by
  refine ⟨extractGo_countTried attempt 5 0, fun ms => extractGo_sleeps attempt 5 0 ms, ?_⟩
  intro h
  exact extractGo_allfail attempt 5 0 (fun j hj s hs => h j hj s (by simpa using hs))

/-- Witness for C4: when every attempt throws, the loop makes exactly five
attempts, sleeps 2000 ms each time, and throws the final error. -/
theorem extractCode_bounded_retries_witness :
    ((extractCode (fun _ => none)).2 =
        .error "Failed to extract code after multiple attempts" ∧
      countTried (extractCode (fun _ => none)).1 = 5) ∧
    2000 = 2000 :=
  ⟨(extractCode_bounded_retries (fun _ => none)).2.2
      (fun j _ s hs => Option.noConfusion hs),
   (extractCode_bounded_retries (fun _ => none)).2.1 2000 (by decide)⟩

theorem extractGo_ok (attempt : Nat → Option String) :
    ∀ rem i k c, (extractGo attempt i rem).2 = .ok (k, c) →
      k = "code.tsx" ∧ acceptCode c = true ∧
        ∃ j, i ≤ j ∧ j < i + rem ∧ attempt j = some c := by
  intro rem
  induction rem with
  | zero => intro i k c h; simp [extractGo] at h
  | succ rem ih =>
    intro i k c h
    simp only [extractGo] at h
    cases ha : attempt i with
    | some s =>
      rw [ha] at h
      by_cases hs : acceptCode s = true
      · simp [hs] at h
        obtain ⟨rfl, rfl⟩ := h
        exact ⟨rfl, hs, i, le_rfl, by omega, ha⟩
      · simp [hs] at h
        obtain ⟨h1, h2, j, hj1, hj2, hj3⟩ := ih (i + 1) k c h
        exact ⟨h1, h2, j, by omega, by omega, hj3⟩
    | none =>
      rw [ha] at h
      simp at h
      obtain ⟨h1, h2, j, hj1, hj2, hj3⟩ := ih (i + 1) k c h
      exact ⟨h1, h2, j, by omega, by omega, hj3⟩

/-- C9: whatever `extractCode` returns came from some attempt's clipboard
read, is keyed `code.tsx`, and passed the content filter: non-blank after
trimming and containing one of the code keywords; clipboard text failing
the filter is never returned. -/
theorem extractCode_content_filter (attempt : Nat → Option String) :
    ∀ k c, (extractCode attempt).2 = .ok (k, c) →
      k = "code.tsx" ∧ acceptCode c = true ∧ ∃ j, j < 5 ∧ attempt j = some c := by
  intro k c h
  obtain ⟨h1, h2, j, _, hj, hc⟩ := extractGo_ok attempt 5 0 k c h
  exact ⟨h1, h2, j, by omega, hc⟩

/-- Witness for C9 at a concrete accepted clipboard text. -/
theorem extractCode_content_filter_witness :
    acceptCode "export default 1" = true ∧
      ∃ j, j < 5 ∧ (fun _ => some "export default 1") j = some "export default 1" :=
  ((extractCode_content_filter (fun _ => some "export default 1")
      "code.tsx" "export default 1" rfl).2)

/-! ## Claim C5: the Code-tab selector fallback order -/

/-- C5: within an attempt, the Code tab strategies run in a fixed nested
fallback order: the plain text locator always runs first; the role-based
locator runs exactly when the text locator threw; the AI `act` instruction
runs exactly when both locators threw; and the attempted list is always an
ordered prefix of the three strategies. -/
theorem clickCodeTab_fallback_order (r1 r2 r3 : Bool) :
    ((clickCodeTab r1 r2 r3).1.head? = some .textLocator) ∧
    (TabStrategy.roleTab ∈ (clickCodeTab r1 r2 r3).1 ↔ r1 = false) ∧
    (TabStrategy.aiAct ∈ (clickCodeTab r1 r2 r3).1 ↔ (r1 = false ∧ r2 = false)) ∧
    ((clickCodeTab r1 r2 r3).1 = [.textLocator] ∨
      (clickCodeTab r1 r2 r3).1 = [.textLocator, .roleTab] ∨
      (clickCodeTab r1 r2 r3).1 = [.textLocator, .roleTab, .aiAct]) := by
  cases r1 <;> cases r2 <;> cases r3 <;> decide

/-! ## Claim C6: the cookie jar gates the login flow -/

/-- C6: in `main`, `checkAndLogin` is invoked if and only if the cookie
array loaded from disk is empty; a non-empty loaded array is added to the
browser context and the login flow is skipped.  The first component of
`mainCookiePhase` is `context.addCookies` running, the second is
`checkAndLogin` running. -/
theorem mainCookiePhase_gates_login (file : Option String) (xs : List Json)
    (h : loadCookies file = Json.arr xs) :
    ((mainCookiePhase (loadCookies file)).2 = true ↔ xs = []) ∧
    (xs ≠ [] →
      (mainCookiePhase (loadCookies file)).1 = true ∧
        (mainCookiePhase (loadCookies file)).2 = false) := by
  rw [h]
  constructor
  · simp [mainCookiePhase, jsArrayLength, List.length_eq_zero]
  · intro hne
    constructor
    · simp [mainCookiePhase, jsArrayLength]
      exact List.length_pos.mpr hne
    · simp [mainCookiePhase, jsArrayLength]
      simpa [List.length_eq_zero] using hne

/-- Witness for C6: a missing cookie file loads as the empty array and the
login flow is invoked. -/
theorem mainCookiePhase_gates_login_witness :
    (mainCookiePhase (loadCookies none)).2 = true :=
  (mainCookiePhase_gates_login none [] rfl).1.mpr rfl

/-! ## Claims C7 and C10: checkAndLogin -/

/-- C7: `checkAndLogin` submits credentials only when the initial
observation reports login elements; if the post-login observation still
reports login elements it throws
`Login failed - still seeing login elements after attempt`; and it saves
cookies, respectively returns `true`, exactly when login elements were
seen, both credentials were truthy, and the post-login observation reports
none. -/
theorem checkAndLogin_verifies (obs1 obs2 : List String) (email password : Option String) :
    ((checkAndLogin obs1 obs2 email password).submittedCreds = true →
      needsLoginFrom obs1 = true) ∧
    ((checkAndLogin obs1 obs2 email password).submittedCreds = true →
      needsLoginFrom obs2 = true →
      (checkAndLogin obs1 obs2 email password).result =
        .error "Login failed - still seeing login elements after attempt") ∧
    ((checkAndLogin obs1 obs2 email password).savedCookies = true ↔
      (needsLoginFrom obs1 = true ∧ envTruthy email = true ∧ envTruthy password = true ∧
        needsLoginFrom obs2 = false)) ∧
    ((checkAndLogin obs1 obs2 email password).result = .ok true ↔
      (needsLoginFrom obs1 = true ∧ envTruthy email = true ∧ envTruthy password = true ∧
        needsLoginFrom obs2 = false)) := by
  unfold checkAndLogin
  generalize needsLoginFrom obs1 = b1
  generalize envTruthy email = b2
  generalize envTruthy password = b3
  generalize needsLoginFrom obs2 = b4
  cases b1 <;> cases b2 <;> cases b3 <;> cases b4 <;> decide

/-- Witness for C7: with login elements seen, truthy credentials and a
clean post-login observation, cookies are saved and `true` returned. -/
theorem checkAndLogin_verifies_witness :
    (checkAndLogin ["the Sign In button"] ["a text box"] (some "e") (some "p")).savedCookies
        = true ∧
      (checkAndLogin ["the Sign In button"] ["a text box"] (some "e") (some "p")).result
        = .ok true :=
  ⟨(checkAndLogin_verifies ["the Sign In button"] ["a text box"] (some "e") (some "p")).2.2.1.mpr
      ⟨by decide, by decide, by decide, by decide⟩,
   (checkAndLogin_verifies ["the Sign In button"] ["a text box"] (some "e") (some "p")).2.2.2.mpr
      ⟨by decide, by decide, by decide, by decide⟩⟩

/-- C10: when login elements are detected but a credential variable is
unset (or empty, which JS truthiness treats the same), `checkAndLogin`
clicks the sign-in buttons, never submits credentials, saves nothing, and
returns `false` without throwing. -/
theorem checkAndLogin_missing_creds (obs1 obs2 : List String)
    (email password : Option String)
    (h1 : needsLoginFrom obs1 = true)
    (h2 : envTruthy email = false ∨ envTruthy password = false) :
    checkAndLogin obs1 obs2 email password = ⟨true, false, false, .ok false⟩ := by
  unfold checkAndLogin
  rw [if_pos h1, if_neg]
  intro hc
  rw [Bool.and_eq_true] at hc
  rcases h2 with h | h <;> simp [h] at hc

/-- Witness for C10 with a login element observed and no email set. -/
theorem checkAndLogin_missing_creds_witness :
    checkAndLogin ["Login with GitHub"] [] none (some "p") =
      ⟨true, false, false, .ok false⟩ :=
  checkAndLogin_missing_creds ["Login with GitHub"] [] none (some "p")
    (by decide) (Or.inl rfl)

/-! ## Claim C8: the themed prompt -/

/-- C8: the prompt submitted for a `--flowerType` value is exactly the
template `Create a beautiful ${flowerType} themed Valentine's day card
with a romantic message. Make sure that it is only a single file.`, and in
particular contains the flowerType string. -/
theorem promptFor_template (flowerType : String) :
    promptFor flowerType =
      "Create a beautiful " ++ flowerType ++
        " themed Valentine's day card with a romantic message. Make sure that it is only a single file." ∧
    ∃ pre suf, pre ++ flowerType.data ++ suf = (promptFor flowerType).data := by
  exact ⟨rfl, "Create a beautiful ".data,
    " themed Valentine's day card with a romantic message. Make sure that it is only a single file.".data,
    rfl⟩

end V0
